import Mathlib

set_option maxRecDepth 100000

/-!
Verification development for the conversational-turn orchestrator
(`src/server/api/routes/messages.ts`, `src/server/services/embeddingService.ts`,
`src/server/services/openai.ts`).

The TypeScript code is shallowly embedded: pure helpers become Lean
functions on `String` (represented through their `List Char` data, so that
everything reduces in the kernel), the Mongo-backed stores become explicit
state passing over a `DB` record, and each `axios` HTTP call becomes an
oracle value (`HttpOutcome`) supplied by the environment.  JavaScript
strings are UTF-16; we model code points, which agrees on the ASCII
strings this code manipulates.
-/

namespace EoxsAii

/-! ### String utilities (embedding of the JS string operations used) -/

/-- ASCII lower-casing of one character, the fragment of
`String.prototype.toLowerCase` exercised by the code's ASCII literals. -/
def lowerChar (c : Char) : Char :=
  if 65 ≤ c.toNat ∧ c.toNat ≤ 90 then Char.ofNat (c.toNat + 32) else c

/-- Embedding of `s.toLowerCase()`. -/
def lowerStr (s : String) : String := ⟨s.data.map lowerChar⟩

/-- Does the character list `s` start with `pat`? -/
def startsWithL : List Char → List Char → Bool
  | _, [] => true
  | [], _ :: _ => false
  | c :: cs, p :: ps => p == c && startsWithL cs ps

/-- Does `pat` occur as a contiguous run inside the character list? -/
def occursInL (pat : List Char) : List Char → Bool
  | [] => pat.isEmpty
  | c :: cs => startsWithL (c :: cs) pat || occursInL pat cs

/-- Embedding of `s.includes(pat)`. -/
def strIncludes (s pat : String) : Bool := occursInL pat.data s.data

/-- Embedding of `s.substring(0, n)`. -/
def strTake (s : String) (n : Nat) : String := ⟨s.data.take n⟩

/-- JavaScript `a || b` on an optional string: `undefined` and the empty
string are falsy. -/
def jsOrStr (a : Option String) (b : String) : String :=
  match a with
  | some s => if s = "" then b else s
  | none => b

/-- The whitespace characters split on by `split(/\s+/)` (the fragment of
JS `\s` that can occur in chat text). -/
def isWS (c : Char) : Bool := c == ' ' || c == '\t' || c == '\n' || c == '\r'

/-- Does the character list start with a whitespace character? -/
def startsWS : List Char → Bool
  | [] => false
  | c :: _ => isWS c

/-- Embedding of `s.split(/\s+/)` on character lists: a maximal whitespace
run is one separator, and leading/trailing runs contribute empty tokens,
exactly as in JavaScript (`" a ".split(/\s+/) = ["", "a", ""]`). -/
def splitWSChars : List Char → List String
  | [] => [""]
  | c :: cs =>
    let r := splitWSChars cs
    if isWS c then
      if startsWS cs then r else "" :: r
    else
      match r with
      | [] => [⟨[c]⟩]
      | h :: t => (⟨c :: h.data⟩ : String) :: t

/-- Embedding of `s.split(/\s+/)`. -/
def splitWS (s : String) : List String := splitWSChars s.data

/-! ### String constants, transcribed verbatim from the source -/

/-- Degraded-mode answer returned by `getRAGResponse` both when the service
is disabled and when the backend call fails (the two literals in the source
are character-for-character identical). -/
def degradedRagAnswer : String := "I'm currently having trouble accessing my extended knowledge base, but I'd be happy to help you with general questions or discuss topics based on my core knowledge. What would you like to know? I can assist with various subjects including technology, programming, general knowledge, and more. Just let me know what you're interested in, and I'll provide the best possible response with the information available to me."

/-- Context returned by `getRAGResponse` when no API URL is configured. -/
def ragDisabledContext : String := "Embedding Service disabled: No API URL available"

/-- Context returned by `getRAGResponse` when the backend call fails. -/
def ragErrorContext : String := "Error retrieving context"

/-- Error field of `createEmbedding`'s disabled-state result. -/
def embedDisabledError : String := "Embedding Service is disabled: No API URL available"

/-- Error field of `createEmbedding`'s non-axios failure result. -/
def embedGenericError : String := "Failed to create embedding"

/-- Fallback substituted by the orchestrator for an empty RAG answer. -/
def couldNotGenerateText : String := "Sorry, I could not generate a response."

/-- Richer substitute for `couldNotGenerateText` in `enhanceResponse`. -/
def bpVal1 : String := "I apologize, but I'm having trouble generating a response right now. This could be due to a temporary issue with my knowledge base or the complexity of your question. Could you please try rephrasing your question or ask something more specific? I'm here to help and want to provide you with the best possible assistance."

/-- Second boilerplate key of `enhanceResponse`. -/
def bpKey2 : String := "I couldn't retrieve relevant information at the moment. How else can I assist you?"

/-- Richer substitute for `bpKey2`. -/
def bpVal2 : String := "I'm currently unable to access my extended knowledge base, but I'd be happy to help you with general questions or discuss topics based on my core knowledge. What would you like to know? I can assist with various subjects including technology, programming, general knowledge, and more."

/-- Third boilerplate key of `enhanceResponse`. -/
def bpKey3 : String := "I couldn't access my extended knowledge at the moment. The embedding service is not configured."

/-- Richer substitute for `bpKey3`. -/
def bpVal3 : String := "I'm currently operating with limited access to my knowledge base, but I can still help you with many topics. What specific question do you have? I can provide general information, help with programming questions, explain concepts, or assist with various other subjects."

/-- Fourth boilerplate key of `enhanceResponse`. -/
def bpKey4 : String := "I received your message."

/-- Richer substitute for `bpKey4`. -/
def bpVal4 : String := "Thank you for your message! I'd be happy to help you with any questions or topics you'd like to discuss. Could you please provide more details about what you'd like to know? The more specific you are, the better I can assist you."

/-- Canned greeting elaboration of `enhanceResponse`. -/
def greetingReply : String := "Hello! I'm here to help you with any questions or topics you'd like to explore. Whether you need help with programming, want to learn about new technologies, discuss ideas, or just have a conversation, I'm ready to assist. What would you like to talk about today?"

/-- Canned help-request elaboration of `enhanceResponse`. -/
def helpReply : String := "I'm here to help! I can assist you with a wide range of topics including programming, technology, general knowledge, problem-solving, and more. Just let me know what specific area you need help with, and I'll do my best to provide detailed, helpful information. What can I help you with today?"

/-- Canned thanks elaboration of `enhanceResponse`. -/
def thanksReply : String := "You're very welcome! I'm glad I could help. If you have any more questions or need assistance with anything else, feel free to ask. I'm here to help with programming, technology, general knowledge, or any other topics you'd like to explore. What else can I assist you with?"

/-- Canned farewell elaboration of `enhanceResponse`. -/
def farewellReply : String := "Goodbye! It was great chatting with you. Feel free to return anytime if you have more questions or need assistance. I'm always here to help with programming, technology, learning, or any other topics you're interested in. Have a wonderful day!"

/-- Generic elaboration-invitation suffix (the tail of the template literal
`` `${originalResponse} I'd be happy ...` ``, including the joining space). -/
def genericTail : String := " I'd be happy to provide more detailed information or help you explore this topic further. Could you please let me know what specific aspects you'd like me to elaborate on? I can provide examples, explanations, or discuss related concepts to give you a more comprehensive understanding."

/-! ### ResponseEnhancer (`enhanceResponse` in messages.ts) -/

/-- The `enhancedResponses` object literal: known boilerplate fallback
strings and their richer substitutes, in source order. -/
def enhancedResponses : List (String × String) :=
  [ (couldNotGenerateText, bpVal1),
    (bpKey2, bpVal2),
    (bpKey3, bpVal3),
    (bpKey4, bpVal4) ]

/-- Embedding of `enhanceResponse(originalResponse, userQuery)`: pass long
answers through, substitute known boilerplate, else classify the query by
case-insensitive keyword containment in source order, else append the
generic elaboration invitation. -/
def enhanceResponse (originalResponse userQuery : String) : String :=
  if originalResponse.length > 200 then originalResponse
  else
    match enhancedResponses.lookup originalResponse with
    | some v => v
    | none =>
      let queryLower := lowerStr userQuery
      if strIncludes queryLower "hello" || strIncludes queryLower "hi" then greetingReply
      else if strIncludes queryLower "help" || strIncludes queryLower "assist" then helpReply
      else if strIncludes queryLower "thanks" || strIncludes queryLower "thank you" then thanksReply
      else if strIncludes queryLower "bye" || strIncludes queryLower "goodbye" then farewellReply
      else originalResponse ++ genericTail

/-! ### EmbeddingService (embeddingService.ts)

Each `axios.post` is modelled by an oracle `HttpOutcome` describing how the
HTTP call would have gone; the service methods are then total Lean
functions, mirroring the fact that in the source every `try` wraps the
whole call and every `catch` returns an in-band value, so neither method
can throw. -/

/-- Outcome of one HTTP request: success with a parsed body, an axios
error (optionally carrying a response status) caught by
`axios.isAxiosError`, or any other thrown error. -/
inductive HttpOutcome (α : Type) where
  | ok (data : α)
  | axiosErr (status : Option Nat) (msg : String)
  | otherErr
deriving Repr, DecidableEq

/-- The `EmbeddingResponse` interface. -/
structure EmbeddingResponse where
  status : String
  vector : Option (List Int) := none
  error : Option String := none
deriving Repr, DecidableEq

/-- The `RAGResponse` interface (the `matches` field is never read by the
orchestrator and is omitted). -/
structure RAGResponse where
  answer : String
  context : String
  responseId : Option String := none
deriving Repr, DecidableEq

/-- `EmbeddingService.isEnabled()`: the service is enabled exactly when an
API URL was configured. -/
def isEnabled (apiUrl : Option String) : Bool := apiUrl.isSome

/-- Embedding of `EmbeddingService.createEmbedding`: disabled state and
every failure are converted to in-band error-shaped results; a successful
call returns `response.data` literally. -/
def createEmbedding (apiUrl : Option String)
    (outcome : HttpOutcome EmbeddingResponse)
    (_userId _content : String) (_threadId _messageId : Option String) :
    EmbeddingResponse :=
  if (isEnabled apiUrl) = false then
    { status := "error", error := some embedDisabledError }
  else
    match outcome with
    | .ok data => data
    | .axiosErr status msg =>
      { status := "error",
        error := some ("API error: " ++
          (match status with | some n => toString n | none => "unknown") ++
          " - " ++ msg) }
    | .otherErr => { status := "error", error := some embedGenericError }

/-- Embedding of `EmbeddingService.getRAGResponse`: disabled state and
every failure yield the fixed degraded-mode answer (with distinguishing
context strings); a successful call returns `response.data` literally. -/
def getRAGResponse (apiUrl : Option String)
    (outcome : HttpOutcome RAGResponse)
    (_userId _query : String) (_threadId : Option String) : RAGResponse :=
  if (isEnabled apiUrl) = false then
    { answer := degradedRagAnswer, context := ragDisabledContext }
  else
    match outcome with
    | .ok data => data
    | .axiosErr _ _ => { answer := degradedRagAnswer, context := ragErrorContext }
    | .otherErr => { answer := degradedRagAnswer, context := ragErrorContext }

/-! ### Persistence model (Mongo collections as in-memory lists)

Documents receive ids and timestamps from a single logical clock `tick`
that advances on every write, which models Mongo ObjectIds/`createdAt`
values being assigned in write order. -/

/-- A `Thread` document. -/
structure Thread where
  id : Nat
  userId : String
  title : String
  isActive : Bool
  createdBy : String
  createdAt : Nat
  updatedAt : Nat
deriving Repr, DecidableEq

/-- A `Message` document. -/
structure Msg where
  id : Nat
  threadId : Nat
  content : String
  sender : String
  files : List String
  createdAt : Nat
  updatedAt : Nat
deriving Repr, DecidableEq

/-- The database state. -/
structure DB where
  threads : List Thread
  messages : List Msg
  tick : Nat
deriving Repr, DecidableEq

/-- The empty database. -/
def emptyDB : DB := { threads := [], messages := [], tick := 0 }

/-- Stable insertion of `a` into a list sorted descending by `key`. -/
def insertByDesc (key : α → Nat) (a : α) : List α → List α
  | [] => [a]
  | b :: bs => if key b ≤ key a then a :: b :: bs else b :: insertByDesc key a bs

/-- Stable sort, descending by `key`: the model of Mongo
`.sort({field: -1})`. -/
def sortByDesc (key : α → Nat) : List α → List α
  | [] => []
  | a :: as => insertByDesc key a (sortByDesc key as)

/-- `Thread.findById`. -/
def findThread (db : DB) (tid : Nat) : Option Thread :=
  db.threads.find? (fun t => t.id == tid)

/-- The user's active threads, as filtered by
`Thread.findOne({userId, isActive: true})`. -/
def activeThreadsOf (db : DB) (userId : String) : List Thread :=
  db.threads.filter (fun t => t.userId == userId && t.isActive)

/-- Title given to a freshly created thread: the first 50 characters of
the triggering content, plus `"..."` exactly when the content is longer
than 50 characters. -/
def titleOf (content : String) : String :=
  strTake content 50 ++ (if content.length > 50 then "..." else "")

/-- Errors thrown by the route handlers (the middleware error classes). -/
inductive ApiError where
  | validation (msg : String)
  | notFound (msg : String)
  | unauthorized (msg : String)
deriving Repr, DecidableEq

/-- Thread resolution of `POST /api/messages` (messages.ts lines 113-147):
a supplied threadId is looked up (NotFound if absent); otherwise the
most-recently-updated active thread of the user is reused, and if none
exists a new thread is created.  Returns the actual thread id and the
possibly extended database. -/
def resolveThread (db : DB) (userId : String) (threadId : Option Nat)
    (content : String) : Except ApiError (Nat × DB) :=
  match threadId with
  | some tid =>
    match findThread db tid with
    | some _ => .ok (tid, db)
    | none => .error (.notFound "Thread not found")
  | none =>
    match (sortByDesc (fun t => t.updatedAt) (activeThreadsOf db userId)).head? with
    | some t => .ok (t.id, db)
    | none =>
      let t : Thread :=
        { id := db.tick, userId := userId, title := titleOf content,
          isActive := true, createdBy := userId,
          createdAt := db.tick, updatedAt := db.tick }
      .ok (t.id, { db with threads := db.threads ++ [t], tick := db.tick + 1 })

/-! ### MemoryRecall (`OpenAIService.getRelevantMemory` in openai.ts) -/

/-- The recall-trigger phrases, in source order. -/
def recallTriggers : List String :=
  ["what did i say", "earlier", "before", "previous", "remind me", "last time"]

/-- The stop-word list removed from the tokenized query. -/
def stopWords : List String :=
  ["what", "did", "i", "say", "about", "the", "last", "time", "you"]

/-- The last remaining token of the lowercased, stop-word-filtered query
(`keywords.pop() || ''` yields `""` when nothing remains). -/
def lastKeywordOf (userMessage : String) : String :=
  (((splitWS (lowerStr userMessage)).filter
      (fun w => (stopWords.contains w) = false)).getLast?).getD ""

/-- Atom of the modelled JavaScript regular-expression fragment: a
literal character (compared case-insensitively under the `'i'` flag) or
the `.` wildcard (matching every character except a line terminator, as
in JS). -/
inductive RegexAtom where
  | lit (c : Char)
  | dot
deriving Repr, DecidableEq

/-- A parsed pattern piece: an atom, possibly under a postfix quantifier
(`+`, `*` or `?`). -/
inductive RegexPiece where
  | once (a : RegexAtom)
  | star (a : RegexAtom)
  | plus (a : RegexAtom)
  | opt (a : RegexAtom)
deriving Repr, DecidableEq

/-- Regex metacharacters outside the modelled fragment.  A keyword
containing one is conservatively treated as unparsable; the theorems
below never instantiate a keyword that contains one of them. -/
def regexOther : List Char :=
  ['\\', '^', '$', '|', '(', ')', '[', ']', '\x7b', '\x7d']

/-- Every character that is special in the modelled fragment: a keyword
avoiding all of these is a plain literal pattern, for which the JS regex
test coincides with case-insensitive containment. -/
def regexSpecials : List Char :=
  ['.', '+', '*', '?', '\\', '^', '$', '|', '(', ')', '[', ']', '\x7b', '\x7d']

/-- Parser for the modelled fragment of `new RegExp(pattern)`: literal
characters, `.`, and a single postfix quantifier `+`/`*`/`?` on an atom.
A quantifier with nothing to repeat (as in `c++`, where JS throws a
SyntaxError) yields `none`; characters of `regexOther` are outside the
fragment and also yield `none`. -/
def parseRegexAux : List Char → List RegexPiece → Option (List RegexPiece)
  | [], acc => some acc.reverse
  | c :: cs, acc =>
    if c == '.' then parseRegexAux cs (RegexPiece.once RegexAtom.dot :: acc)
    else if c == '+' || c == '*' || c == '?' then
      match acc with
      | RegexPiece.once a :: rest =>
        parseRegexAux cs
          ((if c == '+' then RegexPiece.plus a
            else if c == '*' then RegexPiece.star a
            else RegexPiece.opt a) :: rest)
      | _ => none
    else if regexOther.contains c then none
    else parseRegexAux cs (RegexPiece.once (RegexAtom.lit c) :: acc)

/-- Embedding of `new RegExp(keyword, 'i')` construction for the modelled
fragment: `none` models the constructor throwing. -/
def compileRegex (kw : String) : Option (List RegexPiece) :=
  parseRegexAux kw.data []

/-- Does an atom match one character (case-insensitive, `.` excludes line
terminators)? -/
def atomMatch : RegexAtom → Char → Bool
  | RegexAtom.lit p, c => lowerChar p == lowerChar c
  | RegexAtom.dot, c =>
    !(c == '\n' || c == '\r' || c == '\u2028' || c == '\u2029')

/-- Backtracking matcher for a pattern against a prefix of the input
(leftover input is allowed, as in an unanchored `test`).  The fuel is an
upper bound on the recursion depth; every call strictly decreases
`pieces.length + input.length`, so `regexFuel` below is always enough. -/
def matchPieces : Nat → List RegexPiece → List Char → Bool
  | 0, _, _ => false
  | _ + 1, [], _ => true
  | fuel + 1, RegexPiece.once a :: ps, s =>
    match s with
    | [] => false
    | c :: cs => atomMatch a c && matchPieces fuel ps cs
  | fuel + 1, RegexPiece.opt a :: ps, s =>
    matchPieces fuel ps s ||
      (match s with
       | [] => false
       | c :: cs => atomMatch a c && matchPieces fuel ps cs)
  | fuel + 1, RegexPiece.plus a :: ps, s =>
    match s with
    | [] => false
    | c :: cs => atomMatch a c && matchPieces fuel (RegexPiece.star a :: ps) cs
  | fuel + 1, RegexPiece.star a :: ps, s =>
    matchPieces fuel ps s ||
      (match s with
       | [] => false
       | c :: cs => atomMatch a c && matchPieces fuel (RegexPiece.star a :: ps) cs)

/-- Sufficient fuel for `matchPieces`. -/
def regexFuel (ps : List RegexPiece) (s : List Char) : Nat :=
  ps.length + s.length + 1

/-- Does the pattern match starting at the head of the input? -/
def regexAccepts (ps : List RegexPiece) (s : List Char) : Bool :=
  matchPieces (regexFuel ps s) ps s

/-- Embedding of `regex.test(content)`: unanchored search at every
position. -/
def regexSearch (ps : List RegexPiece) : List Char → Bool
  | [] => regexAccepts ps []
  | c :: cs => regexAccepts ps (c :: cs) || regexSearch ps cs

/-- The pattern of a plain literal keyword. -/
def litPieces (kw : List Char) : List RegexPiece :=
  kw.map (fun c => RegexPiece.once (RegexAtom.lit c))

/-- Case-insensitive version of `startsWithL` (pattern second). -/
def startsWithCI : List Char → List Char → Bool
  | _, [] => true
  | [], _ :: _ => false
  | c :: cs, p :: ps => lowerChar p == lowerChar c && startsWithCI cs ps

/-- Case-insensitive version of `occursInL`. -/
def occursCI (pat : List Char) : List Char → Bool
  | [] => pat.isEmpty
  | c :: cs => startsWithCI (c :: cs) pat || occursCI pat cs

/-- The messages matched by `getRelevantMemory`'s Mongo query: same
thread, non-system sender, content matching the compiled
`new RegExp(keyword, 'i')`, newest-first, limited to 3. -/
def recallMatches (db : DB) (threadId : Nat) (pieces : List RegexPiece) :
    List Msg :=
  (sortByDesc (fun m => m.createdAt)
    (db.messages.filter (fun m =>
      m.threadId == threadId && m.sender != "system" &&
      regexSearch pieces m.content.data))).take 3

/-- Embedding of `OpenAIService.getRelevantMemory`: no trigger phrase or
no remaining keyword gives an empty result with no search; an invalid
keyword pattern makes the function throw (the `new RegExp` on
openai.ts line 194 sits outside the `try`); otherwise the matched
messages are rendered as bullet-prefixed lines. -/
def getRelevantMemory (db : DB) (threadId : Nat) (userMessage : String) :
    Except String (List String) :=
  let queryLower := lowerStr userMessage
  if (recallTriggers.any (fun t => strIncludes queryLower t)) = false then .ok []
  else
    let kw := lastKeywordOf userMessage
    if kw = "" then .ok []
    else
      match compileRegex kw with
      | none => .error "SyntaxError: Invalid regular expression"
      | some pieces =>
        .ok ((recallMatches db threadId pieces).map (fun m => "• " ++ m.content))

/-! ### ConversationOrchestrator (`POST /api/messages` and
`POST /api/messages/batch` in messages.ts) -/

/-- Environment of one turn: the configured embedding API URL and the
oracle outcomes of the (at most) three HTTP calls a turn can make. -/
structure Env where
  embedApi : Option String
  userEmbedOutcome : HttpOutcome EmbeddingResponse
  aiEmbedOutcome : HttpOutcome EmbeddingResponse
  ragOutcome : HttpOutcome RAGResponse
deriving Repr, DecidableEq

/-- Trace of the orchestrator's calls into its collaborators: indexing of
the user message, the retrieval call, the (pure) enhancement call, and
indexing of the assistant message.  Embedding events record the result the
service returned (the orchestrator only logs it). -/
inductive ExtCall where
  | embedUser (userId content : String) (threadId messageId : Nat)
      (result : EmbeddingResponse)
  | rag (userId query : String)
  | enhance (originalResponse userQuery : String)
  | embedAI (userId content : String) (threadId messageId : Nat)
      (result : EmbeddingResponse)
deriving Repr, DecidableEq

/-- The response body of `POST /api/messages`. -/
structure TurnResponse where
  answer : String
  context : String
  responseId : String
  threadId : Nat
  messageId : Nat
deriving Repr, DecidableEq

/-- Embedding of the `POST /api/messages` handler (createTurn): validate,
resolve the thread, persist the user message, best-effort index it,
retrieve (fail-open), enhance, persist the assistant message, best-effort
index it, touch the thread timestamp, and respond.  The returned trace
lists the collaborator calls made. -/
def createTurn (env : Env) (db : DB) (threadId : Option Nat)
    (content userId : String) (files : List String) :
    Except ApiError (TurnResponse × DB × List ExtCall) :=
  if content = "" then .error (.validation "content is required")
  else if userId = "" then .error (.validation "userId is required")
  else
    match resolveThread db userId threadId content with
    | .error e => .error e
    | .ok (tid, db1) =>
      let userMsg : Msg :=
        { id := db1.tick, threadId := tid, content := content,
          sender := userId, files := files,
          createdAt := db1.tick, updatedAt := db1.tick }
      let db2 : DB := { db1 with messages := db1.messages ++ [userMsg],
                                 tick := db1.tick + 1 }
      let trace1 : List ExtCall :=
        if isEnabled env.embedApi then
          [.embedUser userId content tid userMsg.id
            (createEmbedding env.embedApi env.userEmbedOutcome userId content
              (some (toString tid)) (some (toString userMsg.id)))]
        else []
      let rag := getRAGResponse env.embedApi env.ragOutcome userId content none
      let trace2 := trace1 ++ [.rag userId content]
      let aiResponseContent :=
        if rag.answer = "" then couldNotGenerateText else rag.answer
      let enhanced := enhanceResponse aiResponseContent content
      let trace3 := trace2 ++ [.enhance aiResponseContent content]
      let aiMsg : Msg :=
        { id := db2.tick, threadId := tid, content := enhanced,
          sender := "system", files := [],
          createdAt := db2.tick, updatedAt := db2.tick }
      let db3 : DB := { db2 with messages := db2.messages ++ [aiMsg],
                                 tick := db2.tick + 1 }
      let trace4 := trace3 ++
        (if isEnabled env.embedApi then
          [.embedAI userId enhanced tid aiMsg.id
            (createEmbedding env.embedApi env.aiEmbedOutcome userId enhanced
              (some (toString tid)) (some (toString aiMsg.id)))]
        else [])
      let db4 : DB :=
        { db3 with
          threads := db3.threads.map (fun t =>
            if t.id == tid then { t with updatedAt := db3.tick } else t),
          tick := db3.tick + 1 }
      .ok ({ answer := enhanced, context := rag.context,
             responseId := rag.responseId.getD "",
             threadId := tid, messageId := userMsg.id }, db4, trace4)

/-- One payload of the batch endpoint. -/
structure BatchMsg where
  content : String
  sender : Option String := none
deriving Repr, DecidableEq

/-- A message as formatted for the frontend by the batch endpoint. -/
structure MsgOut where
  id : Nat
  threadId : Nat
  content : String
  sender : String
  createdAt : Nat
  updatedAt : Nat
deriving Repr, DecidableEq

/-- The batch endpoint's ownership guard `userId && thread.userId !==
userId`: `userId` is checked for truthiness first, so both an absent and
an empty-string userId skip the ownership check. -/
def ownershipMismatch (thread : Thread) (userId : Option String) : Bool :=
  match userId with
  | some u => if u = "" then false else thread.userId != u
  | none => false

/-- Whether an `Except` result is a success. -/
def exOk {ε α : Type _} : Except ε α → Bool
  | .ok _ => true
  | .error _ => false

/-- Embedding of the `POST /api/messages/batch` handler: validate, check
the thread exists, check ownership only when a userId was supplied, then
bulk-insert all payloads in order.  The trace of collaborator calls is
returned alongside; this handler never calls indexing, retrieval or
enhancement. -/
def batchCreateMessages (db : DB) (threadId : Nat) (msgs : List BatchMsg)
    (userId : Option String) :
    Except ApiError (List MsgOut × DB × List ExtCall) :=
  if msgs = [] then
    .error (.validation "threadId and non-empty messages array are required")
  else
    match findThread db threadId with
    | none => .error (.notFound "Thread not found")
    | some thread =>
      if ownershipMismatch thread userId then
        .error (.unauthorized
          "You do not have permission to add messages to this thread")
      else
        let inserted := (List.range msgs.length).zip msgs |>.map (fun p =>
          { id := db.tick + p.1, threadId := threadId,
            content := p.2.content,
            sender := jsOrStr p.2.sender (jsOrStr userId "system"),
            files := [], createdAt := db.tick + p.1,
            updatedAt := db.tick + p.1 : Msg })
        let db' : DB := { db with messages := db.messages ++ inserted,
                                  tick := db.tick + msgs.length }
        .ok (inserted.map (fun m =>
          { id := m.id, threadId := m.threadId, content := m.content,
            sender := m.sender, createdAt := m.createdAt,
            updatedAt := m.updatedAt }), db', [])

/-- The response body of `POST /api/messages/generate`. -/
structure GenResponse where
  answer : String
  context : String
  responseId : String
deriving Repr, DecidableEq

/-- Embedding of the `POST /api/messages/generate` handler (generateOnly):
validate, look the thread up (NotFound if absent), persist the user
message with sender `thread.userId || 'user'`, best-effort index it,
retrieve (fail-open, with the threadId passed this time), substitute the
fallback for an empty answer, enhance, persist the assistant message,
best-effort index it, and respond with
`{answer, context || "RAG context not available", responseId}`.  Unlike
`createTurn` it does not touch the thread timestamp. -/
def generateOnly (env : Env) (db : DB) (threadId : Nat) (userMessage : String) :
    Except ApiError (GenResponse × DB × List ExtCall) :=
  if userMessage = "" then
    .error (.validation "threadId and userMessage are required fields")
  else
    match findThread db threadId with
    | none => .error (.notFound "Thread not found")
    | some thread =>
      let userMsg : Msg :=
        { id := db.tick, threadId := threadId, content := userMessage,
          sender := jsOrStr (some thread.userId) "user", files := [],
          createdAt := db.tick, updatedAt := db.tick }
      let db1 : DB := { db with messages := db.messages ++ [userMsg],
                                tick := db.tick + 1 }
      let trace1 : List ExtCall :=
        if isEnabled env.embedApi then
          [.embedUser thread.userId userMessage threadId userMsg.id
            (createEmbedding env.embedApi env.userEmbedOutcome thread.userId
              userMessage (some (toString threadId))
              (some (toString userMsg.id)))]
        else []
      let rag := getRAGResponse env.embedApi env.ragOutcome thread.userId
        userMessage (some (toString threadId))
      let trace2 := trace1 ++ [.rag thread.userId userMessage]
      let aiResponseContent :=
        if rag.answer = "" then couldNotGenerateText else rag.answer
      let enhanced := enhanceResponse aiResponseContent userMessage
      let trace3 := trace2 ++ [.enhance aiResponseContent userMessage]
      let aiMsg : Msg :=
        { id := db1.tick, threadId := threadId, content := enhanced,
          sender := "system", files := [],
          createdAt := db1.tick, updatedAt := db1.tick }
      let db2 : DB := { db1 with messages := db1.messages ++ [aiMsg],
                                 tick := db1.tick + 1 }
      let trace4 := trace3 ++
        (if isEnabled env.embedApi then
          [.embedAI thread.userId enhanced threadId aiMsg.id
            (createEmbedding env.embedApi env.aiEmbedOutcome thread.userId
              enhanced (some (toString threadId))
              (some (toString aiMsg.id)))]
        else [])
      .ok ({ answer := enhanced,
             context := jsOrStr (some rag.context) "RAG context not available",
             responseId := rag.responseId.getD "" }, db2, trace4)

/-- Projection of a turn result onto its user-visible part: the response
and the final database, dropping the collaborator-call trace. -/
def turnCore :
    Except ApiError (TurnResponse × DB × List ExtCall) →
      Option (TurnResponse × DB)
  | .ok (r, db, _) => some (r, db)
  | .error _ => none

/-- Is a trace event the assistant-message indexing call? -/
def isEmbedAICall : ExtCall → Bool
  | .embedAI _ _ _ _ _ => true
  | _ => false

/-- The assistant-message indexing events in a turn result's trace. -/
def turnAIEvents :
    Except ApiError (TurnResponse × DB × List ExtCall) → List ExtCall
  | .ok (_, _, tr) => tr.filter isEmbedAICall
  | .error _ => []

/-! ### Spec-side rendering of the enhancement classifier (§4.5 rule 3)

Written from the spec's words, to be compared with `enhanceResponse`: an
ordered list of categories — greeting, help-request, thanks, farewell —
each with its keyword set; the first category with a keyword contained
case-insensitively in the query wins. -/

/-- The ordered categories of §4.5 rule 3 with their keyword sets and
canned elaborations. -/
def specCategories : List (List String × String) :=
  [ (["hello", "hi"], greetingReply),
    (["help", "assist"], helpReply),
    (["thanks", "thank you"], thanksReply),
    (["bye", "goodbye"], farewellReply) ]

/-- Spec-side classifier: the earliest category one of whose keywords
occurs (case-insensitively) in the query. -/
def classifyQuery (q : String) : Option String :=
  (specCategories.find? (fun c =>
    c.1.any (fun k => strIncludes (lowerStr q) k))).map (fun c => c.2)

/-! ### Concrete fixtures used by witnesses and examples -/

/-- Environment with retrieval and indexing disabled (no API URL). -/
def envDisabled : Env :=
  { embedApi := none, userEmbedOutcome := .otherErr,
    aiEmbedOutcome := .otherErr, ragOutcome := .otherErr }

/-- A database with one thread of `u1` holding the message
"I like node js". -/
def demoDB2 : DB :=
  { threads := [{ id := 1, userId := "u1", title := "t", isActive := true,
                  createdBy := "u1", createdAt := 0, updatedAt := 0 }],
    messages := [{ id := 2, threadId := 1, content := "I like node js",
                   sender := "u1", files := [], createdAt := 2,
                   updatedAt := 2 }],
    tick := 3 }

/-- A database with one thread of `u1` holding one user message. -/
def demoDB : DB :=
  { threads := [{ id := 1, userId := "u1", title := "t", isActive := true,
                  createdBy := "u1", createdAt := 0, updatedAt := 0 }],
    messages := [{ id := 2, threadId := 1,
                   content := "I built an IoT dashboard", sender := "u1",
                   files := [], createdAt := 2, updatedAt := 2 }],
    tick := 3 }

/-! ### Helper lemmas about the descending sort -/

theorem mem_insertByDesc {key : α → Nat} {a x : α} {l : List α} :
    x ∈ insertByDesc key a l ↔ x = a ∨ x ∈ l := by
  induction l with
  | nil => simp [insertByDesc]
  | cons b bs ih =>
    rw [insertByDesc]
    by_cases hb : key b ≤ key a
    · rw [if_pos hb]
      simp [List.mem_cons]
    · rw [if_neg hb]
      simp only [List.mem_cons, ih]
      tauto

theorem mem_sortByDesc {key : α → Nat} {x : α} {l : List α} :
    x ∈ sortByDesc key l ↔ x ∈ l := by
  induction l with
  | nil => simp [sortByDesc]
  | cons a as ih =>
    rw [sortByDesc, mem_insertByDesc, ih, List.mem_cons]

theorem length_insertByDesc (key : α → Nat) (a : α) (l : List α) :
    (insertByDesc key a l).length = l.length + 1 := by
  induction l with
  | nil => rfl
  | cons b bs ih =>
    rw [insertByDesc]
    by_cases hb : key b ≤ key a
    · simp [hb]
    · simp [hb, ih]

theorem length_sortByDesc (key : α → Nat) (l : List α) :
    (sortByDesc key l).length = l.length := by
  induction l with
  | nil => rfl
  | cons a as ih => rw [sortByDesc, length_insertByDesc, ih, List.length_cons]

theorem pairwise_insertByDesc {key : α → Nat} {a : α} {l : List α}
    (h : l.Pairwise (fun x y => key y ≤ key x)) :
    (insertByDesc key a l).Pairwise (fun x y => key y ≤ key x) := by
  induction l with
  | nil => simp [insertByDesc]
  | cons b bs ih =>
    rw [insertByDesc]
    rcases List.pairwise_cons.mp h with ⟨hb1, hbs⟩
    by_cases hb : key b ≤ key a
    · rw [if_pos hb]
      refine List.pairwise_cons.mpr ⟨?_, h⟩
      intro x hx
      rcases List.mem_cons.mp hx with rfl | hx
      · exact hb
      · exact le_trans (hb1 x hx) hb
    · rw [if_neg hb]
      refine List.pairwise_cons.mpr ⟨?_, ih hbs⟩
      intro x hx
      rcases mem_insertByDesc.mp hx with rfl | hx
      · exact le_of_not_le hb
      · exact hb1 x hx

theorem pairwise_sortByDesc (key : α → Nat) (l : List α) :
    (sortByDesc key l).Pairwise (fun x y => key y ≤ key x) := by
  induction l with
  | nil => simp [sortByDesc]
  | cons a as ih => exact pairwise_insertByDesc ih

/-- The head of the descending sort dominates every member of the list. -/
theorem head_sortByDesc_max {key : α → Nat} {l : List α} {t : α} {ts : List α}
    (h : sortByDesc key l = t :: ts) :
    t ∈ l ∧ ∀ u ∈ l, key u ≤ key t := by
  constructor
  · exact mem_sortByDesc.mp (h ▸ List.mem_cons_self t ts)
  · intro u hu
    have hu' : u ∈ t :: ts := h ▸ mem_sortByDesc.mpr hu
    rcases List.mem_cons.mp hu' with rfl | hu'
    · exact le_refl _
    · exact (List.pairwise_cons.mp (h ▸ pairwise_sortByDesc key l)).1 u hu'

/-! ### Helper lemmas about the enhancer -/

/-- A nonempty string is not the empty string. -/
theorem strNeEmpty {s : String} (h : 0 < s.length) : s ≠ "" := by
  intro heq
  rw [heq] at h
  exact absurd h (by decide)

/-- Values produced by the boilerplate lookup are one of the four
substitutes. -/
theorem lookup_enhancedResponses {a v : String}
    (h : enhancedResponses.lookup a = some v) :
    v = bpVal1 ∨ v = bpVal2 ∨ v = bpVal3 ∨ v = bpVal4 := by
  simp only [enhancedResponses, List.lookup] at h
  split at h
  · exact Or.inl (Option.some.inj h).symm
  · split at h
    · exact Or.inr (Or.inl (Option.some.inj h).symm)
    · split at h
      · exact Or.inr (Or.inr (Or.inl (Option.some.inj h).symm))
      · split at h
        · exact Or.inr (Or.inr (Or.inr (Option.some.inj h).symm))
        · exact absurd h (by simp)

/-- The enhancer never returns an empty string when fed a nonempty
candidate answer. -/
theorem enhanceResponse_ne_empty (a q : String) (h : a ≠ "") :
    enhanceResponse a q ≠ "" := by
  rw [enhanceResponse]
  split
  · exact h
  · cases hl : enhancedResponses.lookup a with
    | some v =>
      simp only [hl]
      rcases lookup_enhancedResponses hl with rfl | rfl | rfl | rfl <;>
        exact strNeEmpty (by decide)
    | none =>
      simp only [hl]
      split
      · exact strNeEmpty (by decide)
      · split
        · exact strNeEmpty (by decide)
        · split
          · exact strNeEmpty (by decide)
          · split
            · exact strNeEmpty (by decide)
            · intro heq
              have h1 : (a ++ genericTail).length = 0 := by rw [heq]; rfl
              rw [String.length_append] at h1
              have h2 : 0 < genericTail.length := by decide
              omega

end EoxsAii

namespace EoxsAii

/-- Claim C1: `getRAGResponse` is total in the embedding (no exception can
propagate).  When no endpoint is configured it returns the fixed non-empty
degraded answer with a context that textually indicates the disabled
reason; when the backend call fails (axios error of any status, or any
other error) it returns the character-for-character identical degraded
answer with a context indicating an error; on success it returns the
backend's literal answer, context and responseId. -/
theorem getRAGResponse_fail_open :
    ∀ (userId query : String) (threadId : Option String) (url : String)
      (o : HttpOutcome RAGResponse) (st : Option Nat) (m : String)
      (r : RAGResponse),
      getRAGResponse none o userId query threadId
          = { answer := degradedRagAnswer, context := ragDisabledContext } ∧
      degradedRagAnswer ≠ "" ∧
      strIncludes ragDisabledContext "disabled" = true ∧
      (getRAGResponse (some url) (.axiosErr st m) userId query threadId).answer
          = (getRAGResponse none o userId query threadId).answer ∧
      (getRAGResponse (some url) .otherErr userId query threadId).answer
          = (getRAGResponse none o userId query threadId).answer ∧
      (getRAGResponse (some url) (.axiosErr st m) userId query threadId).context
          = ragErrorContext ∧
      (getRAGResponse (some url) .otherErr userId query threadId).context
          = ragErrorContext ∧
      strIncludes ragErrorContext "Error" = true ∧
      getRAGResponse (some url) (.ok r) userId query threadId = r := by
  intro userId query threadId url o st m r
  exact ⟨rfl, by decide, by decide, rfl, rfl, rfl, rfl, by decide, rfl⟩

/-- Claim C3: a candidate answer longer than 200 characters is returned
unchanged by `enhanceResponse`, whatever the query. -/
theorem enhanceResponse_long_unchanged :
    ∀ (candidateAnswer q : String), 200 < candidateAnswer.length →
      enhanceResponse candidateAnswer q = candidateAnswer := by
  intro a q h
  rw [enhanceResponse, if_pos h]

/-- Witness for C3 at the degraded RAG answer (length 418 > 200). -/
theorem enhanceResponse_long_unchanged_witness :
    200 < degradedRagAnswer.length ∧
      enhanceResponse degradedRagAnswer "Hello" = degradedRagAnswer :=
  ⟨by decide, enhanceResponse_long_unchanged degradedRagAnswer "Hello" (by decide)⟩

/-- Claim C4: every known boilerplate fallback string has length at most
200, and `enhanceResponse` maps it to its fixed richer substitute
regardless of the query (determinism is immediate: the function is
pure). -/
theorem enhanceResponse_boilerplate :
    ∀ (q a sub : String), (a, sub) ∈ enhancedResponses →
      a.length ≤ 200 ∧ enhanceResponse a q = sub := by
  intro q a sub h
  fin_cases h <;> exact ⟨by decide, rfl⟩

/-- Witness for C4 at the first boilerplate entry. -/
theorem enhanceResponse_boilerplate_witness :
    (couldNotGenerateText, bpVal1) ∈ enhancedResponses ∧
      couldNotGenerateText.length ≤ 200 ∧
      enhanceResponse couldNotGenerateText "hi" = bpVal1 :=
  ⟨List.Mem.head _,
   enhanceResponse_boilerplate "hi" couldNotGenerateText bpVal1 (List.Mem.head _)⟩

/-- Claim C6: with no threadId and no active thread for the user, thread
resolution creates exactly one new thread (the database gains exactly that
thread) with `isActive = true`, `createdBy = userId`, and a title equal to
the first 50 characters of the content suffixed with `"..."` exactly when
the content is longer than 50 characters; when an active thread exists,
the most-recently-updated one is returned and the database is unchanged
(no thread created). -/
theorem resolveThread_find_or_create :
    ∀ (db : DB) (userId content : String),
      (activeThreadsOf db userId = [] →
        ∃ t : Thread,
          resolveThread db userId none content
            = .ok (t.id, { db with threads := db.threads ++ [t],
                                   tick := db.tick + 1 }) ∧
          t.isActive = true ∧ t.createdBy = userId ∧ t.userId = userId ∧
          t.title = strTake content 50 ++
            (if content.length > 50 then "..." else "")) ∧
      (activeThreadsOf db userId ≠ [] →
        ∃ t : Thread,
          resolveThread db userId none content = .ok (t.id, db) ∧
          t ∈ activeThreadsOf db userId ∧
          ∀ u ∈ activeThreadsOf db userId, u.updatedAt ≤ t.updatedAt) := by
  intro db userId content
  constructor
  · intro h
    refine ⟨{ id := db.tick, userId := userId, title := titleOf content,
              isActive := true, createdBy := userId,
              createdAt := db.tick, updatedAt := db.tick },
            ?_, rfl, rfl, rfl, rfl⟩
    simp only [resolveThread, h]
    rfl
  · intro h
    cases hs : sortByDesc (fun t => t.updatedAt) (activeThreadsOf db userId) with
    | nil =>
      exfalso
      have hl := length_sortByDesc (fun t : Thread => t.updatedAt)
        (activeThreadsOf db userId)
      rw [hs] at hl
      exact h (List.length_eq_zero.mp hl.symm)
    | cons t ts =>
      obtain ⟨hmem, hmax⟩ := head_sortByDesc_max hs
      refine ⟨t, ?_, hmem, hmax⟩
      simp only [resolveThread, hs]
      rfl

/-- Witness for C6: resolving with the empty database creates the new
thread for `"u1"` titled `"Hello"`. -/
theorem resolveThread_find_or_create_witness :
    activeThreadsOf emptyDB "u1" = [] ∧
      ∃ t : Thread,
        resolveThread emptyDB "u1" none "Hello"
          = .ok (t.id, { emptyDB with threads := emptyDB.threads ++ [t],
                                      tick := emptyDB.tick + 1 }) ∧
        t.isActive = true ∧ t.createdBy = "u1" ∧ t.userId = "u1" ∧
        t.title = strTake "Hello" 50 ++
          (if ("Hello" : String).length > 50 then "..." else "") :=
  ⟨rfl, (resolveThread_find_or_create emptyDB "u1" "Hello").1 rfl⟩

/-- Matching a plain literal pattern at the head of the input is
case-insensitive prefix comparison. -/
theorem matchPieces_lit (kw : List Char) :
    ∀ (fuel : Nat) (s : List Char), kw.length < fuel →
      matchPieces fuel (litPieces kw) s = startsWithCI s kw := by
  induction kw with
  | nil =>
    intro fuel s h
    cases fuel with
    | zero => omega
    | succ f => cases s <;> rfl
  | cons c ks ih =>
    intro fuel s h
    cases fuel with
    | zero => omega
    | succ f =>
      cases s with
      | nil => rfl
      | cons d ds =>
        show (atomMatch (RegexAtom.lit c) d && matchPieces f (litPieces ks) ds)
            = (lowerChar c == lowerChar d && startsWithCI ds ks)
        rw [ih f ds (by simp only [List.length_cons] at h; omega)]
        rfl

/-- Searching a plain literal pattern is case-insensitive containment. -/
theorem regexSearch_lit (kw : List Char) :
    ∀ s, regexSearch (litPieces kw) s = occursCI kw s := by
  intro s
  induction s with
  | nil =>
    show regexAccepts (litPieces kw) [] = kw.isEmpty
    rw [regexAccepts, matchPieces_lit kw _ _
      (by simp only [regexFuel, litPieces, List.length_map]; omega)]
    cases kw <;> rfl
  | cons c cs ih =>
    show (regexAccepts (litPieces kw) (c :: cs) || regexSearch (litPieces kw) cs)
        = (startsWithCI (c :: cs) kw || occursCI kw cs)
    rw [regexAccepts, matchPieces_lit kw _ _
      (by simp only [regexFuel, litPieces, List.length_map]; omega), ih]

theorem startsWithCI_lower (pat : List Char) :
    ∀ s, startsWithCI s pat
      = startsWithL (s.map lowerChar) (pat.map lowerChar) := by
  induction pat with
  | nil => intro s; cases s <;> rfl
  | cons p ps ih =>
    intro s
    cases s with
    | nil => rfl
    | cons c cs =>
      show (lowerChar p == lowerChar c && startsWithCI cs ps)
          = (lowerChar p == lowerChar c &&
              startsWithL (cs.map lowerChar) (ps.map lowerChar))
      rw [ih]

theorem occursCI_lower (pat : List Char) :
    ∀ s, occursCI pat s = occursInL (pat.map lowerChar) (s.map lowerChar) := by
  intro s
  induction s with
  | nil =>
    show pat.isEmpty = (pat.map lowerChar).isEmpty
    cases pat <;> rfl
  | cons c cs ih =>
    show (startsWithCI (c :: cs) pat || occursCI pat cs)
        = (startsWithL (lowerChar c :: cs.map lowerChar) (pat.map lowerChar) ||
            occursInL (pat.map lowerChar) (cs.map lowerChar))
    rw [startsWithCI_lower, ih]
    rfl

/-- For a plain literal keyword, the embedded JS regex test coincides with
the case-insensitive containment `strIncludes`. -/
theorem regexSearch_lit_includes (kw s : String) :
    regexSearch (litPieces kw.data) s.data
      = strIncludes (lowerStr s) (lowerStr kw) := by
  rw [regexSearch_lit, occursCI_lower]
  rfl

/-- A keyword avoiding every regex special character parses to its plain
literal pattern. -/
theorem parseRegexAux_plain (kw : List Char) :
    ∀ acc, kw.all (fun c => !(regexSpecials.contains c)) = true →
      parseRegexAux kw acc = some (acc.reverse ++ litPieces kw) := by
  induction kw with
  | nil => intro acc _; simp [parseRegexAux, litPieces]
  | cons c ks ih =>
    intro acc h
    rw [List.all_cons, Bool.and_eq_true] at h
    obtain ⟨hc, hks⟩ := h
    have hcc : regexSpecials.contains c = false := by
      rw [Bool.not_eq_true'] at hc
      exact hc
    have hbeq : ∀ x : Char, regexSpecials.contains x = true →
        (c == x) = false ∧ (x == c) = false := by
      intro x hx
      constructor
      · cases hcx : c == x with
        | false => rfl
        | true =>
          exfalso
          rw [eq_of_beq hcx, hx] at hcc
          exact Bool.noConfusion hcc
      · cases hcx : x == c with
        | false => rfl
        | true =>
          exfalso
          rw [← eq_of_beq hcx, hx] at hcc
          exact Bool.noConfusion hcc
    have hco : regexOther.contains c = false := by
      simp only [regexOther, List.contains, List.elem,
        (hbeq '\\' (by decide)).1, (hbeq '^' (by decide)).1,
        (hbeq '$' (by decide)).1, (hbeq '|' (by decide)).1,
        (hbeq '(' (by decide)).1, (hbeq ')' (by decide)).1,
        (hbeq '[' (by decide)).1, (hbeq ']' (by decide)).1,
        (hbeq '\x7b' (by decide)).1, (hbeq '\x7d' (by decide)).1]
    simp only [parseRegexAux, (hbeq '.' (by decide)).1,
      (hbeq '+' (by decide)).1, (hbeq '*' (by decide)).1,
      (hbeq '?' (by decide)).1, Bool.or_false, Bool.false_or,
      Bool.false_eq_true, if_false, hco, ih _ hks]
    simp [litPieces, List.reverse_cons, List.append_assoc]

/-- A plain literal keyword compiles to its literal pattern. -/
theorem compileRegex_plain (kw : String)
    (h : kw.data.all (fun c => !(regexSpecials.contains c)) = true) :
    compileRegex kw = some (litPieces kw.data) := by
  rw [compileRegex, parseRegexAux_plain kw.data [] h]
  rfl

/-- Counterexample for C8 as stated: ownership is not verified for every
supplied userId.  The source guard `userId && thread.userId !== userId`
treats the empty string as falsy, so a supplied empty userId skips the
check: against the thread owned by "u1", the batch insert with
userId = "" succeeds instead of failing Unauthorized. -/
theorem batchCreateMessages_empty_userId_cex :
    findThread demoDB 1 = some (⟨1, "u1", "t", true, "u1", 0, 0⟩ : Thread) ∧
      ("" : String) ≠ "u1" ∧
      exOk (batchCreateMessages demoDB 1 [{ content := "a" }] (some ""))
        = true ∧
      batchCreateMessages demoDB 1 [{ content := "a" }] (some "")
        ≠ .error (.unauthorized
            "You do not have permission to add messages to this thread") := by
  refine ⟨rfl, by decide, rfl, ?_⟩
  intro h
  exact Except.noConfusion h

/-- Claim C8 (amended): the batch endpoint fails with NotFound when the
thread is absent, checks ownership only when a non-empty userId is
supplied (Unauthorized on mismatch; the check is skipped both when the
userId is absent and when it is the empty string, which the source guard
treats as falsy), performs a single all-or-nothing bulk insert whose
created records preserve the input order, and makes no indexing,
retrieval, or enhancement calls (empty call trace). -/
theorem batchCreateMessages_contract :
    ∀ (db : DB) (tid : Nat) (msgs : List BatchMsg) (uid : Option String),
      (msgs ≠ [] → findThread db tid = none →
        batchCreateMessages db tid msgs uid
          = .error (.notFound "Thread not found")) ∧
      (∀ th u, msgs ≠ [] → findThread db tid = some th → uid = some u →
        u ≠ "" → th.userId ≠ u →
        batchCreateMessages db tid msgs uid = .error (.unauthorized
          "You do not have permission to add messages to this thread")) ∧
      (∀ th, msgs ≠ [] → findThread db tid = some th →
        exOk (batchCreateMessages db tid msgs none) = true) ∧
      (∀ th, msgs ≠ [] → findThread db tid = some th →
        exOk (batchCreateMessages db tid msgs (some "")) = true) ∧
      (∀ out db' tr, batchCreateMessages db tid msgs uid = .ok (out, db', tr) →
        tr = [] ∧ db'.threads = db.threads ∧
        out.length = msgs.length ∧
        out.map (fun o => o.content) = msgs.map (fun m => m.content) ∧
        ∃ ins, db'.messages = db.messages ++ ins ∧
          ins.map (fun m => m.content) = msgs.map (fun m => m.content)) := by
  intro db tid msgs uid
  have hcontent : ∀ (t : Nat),
      (((List.range msgs.length).zip msgs).map (fun p =>
        ({ id := t + p.1, threadId := tid, content := p.2.content,
           sender := jsOrStr p.2.sender (jsOrStr uid "system"),
           files := [], createdAt := t + p.1,
           updatedAt := t + p.1 : Msg }))).map (fun m => m.content)
        = msgs.map (fun m => m.content) := by
    intro t
    rw [List.map_map]
    have hcomp : ((fun m : Msg => m.content) ∘ (fun p : Nat × BatchMsg =>
        ({ id := t + p.1, threadId := tid, content := p.2.content,
           sender := jsOrStr p.2.sender (jsOrStr uid "system"),
           files := [], createdAt := t + p.1,
           updatedAt := t + p.1 : Msg })))
        = (fun m : BatchMsg => m.content) ∘ Prod.snd := rfl
    rw [hcomp, ← List.map_map]
    rw [List.map_snd_zip _ _ (by simp)]
  refine ⟨?_, ?_, ?_, ?_, ?_⟩
  · intro hne hf
    simp only [batchCreateMessages, if_neg hne, hf]
  · intro th u hne hf hu hu0 hmis
    subst hu
    simp only [batchCreateMessages, if_neg hne, hf]
    rw [if_pos (show ownershipMismatch th (some u) = true by
      simp [ownershipMismatch, hu0, bne_iff_ne, hmis])]
  · intro th hne hf
    simp only [batchCreateMessages, if_neg hne, hf]
    rfl
  · intro th hne hf
    simp only [batchCreateMessages, if_neg hne, hf]
    rfl
  · intro out db' tr h
    by_cases hne : msgs = []
    · rw [batchCreateMessages, if_pos hne] at h
      exact absurd h (by simp)
    · cases hf : findThread db tid with
      | none =>
        simp [batchCreateMessages, if_neg hne, hf] at h
      | some th =>
        simp only [batchCreateMessages, if_neg hne, hf] at h
        cases hmis : ownershipMismatch th uid with
        | true =>
          rw [hmis] at h
          simp at h
        | false =>
          rw [hmis] at h
          simp only [Bool.false_eq_true, if_false] at h
          have h2 := Except.ok.inj h
          simp only [Prod.mk.injEq] at h2
          obtain ⟨ho, hd, ht⟩ := h2
          subst ho; subst hd; subst ht
          refine ⟨rfl, rfl, ?_, ?_, ?_⟩
          · simp
          · rw [List.map_map]
            have hcomp2 : ((fun o : MsgOut => o.content) ∘ (fun m : Msg =>
                ({ id := m.id, threadId := m.threadId, content := m.content,
                   sender := m.sender, createdAt := m.createdAt,
                   updatedAt := m.updatedAt : MsgOut })))
                = (fun m : Msg => m.content) := rfl
            rw [hcomp2]
            exact hcontent db.tick
          · exact ⟨_, rfl, hcontent db.tick⟩

/-- Witness for C8: an absent thread yields NotFound. -/
theorem batchCreateMessages_contract_witness :
    ([({ content := "a" } : BatchMsg)] ≠ []) ∧
      findThread emptyDB 5 = none ∧
      batchCreateMessages emptyDB 5 [{ content := "a" }] none
        = .error (.notFound "Thread not found") :=
  ⟨by decide, rfl,
   (batchCreateMessages_contract emptyDB 5 [{ content := "a" }] none).1
     (by decide) rfl⟩

/-- Claim C2: a turn `createTurn(content="Hello", userId="u1")` with no
existing thread and retrieval disabled succeeds and returns the
disabled-mode degraded text as answer (longer than 200 characters, so the
enhancer passes it through unchanged), a threadId referring to a newly
created thread, the persisted user message's id as messageId, and leaves
exactly two messages (user and assistant) in that thread. -/
theorem createTurn_end_to_end :
    ∃ (r : TurnResponse) (db' : DB) (tr : List ExtCall),
      createTurn envDisabled emptyDB none "Hello" "u1" [] = .ok (r, db', tr) ∧
      r.answer = degradedRagAnswer ∧
      200 < degradedRagAnswer.length ∧
      enhanceResponse degradedRagAnswer "Hello" = degradedRagAnswer ∧
      r.context = ragDisabledContext ∧
      emptyDB.threads = [] ∧
      (∃ t : Thread, db'.threads = [t] ∧ t.id = r.threadId ∧
        t.createdBy = "u1" ∧ t.isActive = true) ∧
      (∃ m, m ∈ db'.messages ∧ m.id = r.messageId ∧ m.content = "Hello" ∧
        m.sender = "u1" ∧ m.threadId = r.threadId) ∧
      (db'.messages.filter (fun m => m.threadId == r.threadId)).length = 2 ∧
      (∃ m, m ∈ db'.messages ∧ m.sender = "system" ∧
        m.content = degradedRagAnswer ∧ m.threadId = r.threadId) := by
  refine ⟨_, _, _, rfl, rfl, by decide, rfl, rfl, rfl, ?_, ?_, ?_, ?_⟩
  · exact ⟨_, rfl, rfl, rfl, rfl⟩
  · refine ⟨{ id := 1, threadId := 0, content := "Hello", sender := "u1",
              files := [], createdAt := 1, updatedAt := 1 },
            ?_, rfl, rfl, rfl, rfl⟩
    decide
  · decide
  · refine ⟨{ id := 2, threadId := 0, content := degradedRagAnswer,
              sender := "system", files := [], createdAt := 2,
              updatedAt := 2 },
            ?_, rfl, rfl, rfl⟩
    decide

/-- Thread resolution with no supplied threadId always succeeds (an active
thread is reused or a fresh one is created). -/
theorem resolveThread_none_ok (db : DB) (u c : String) :
    exOk (resolveThread db u none c) = true := by
  simp only [resolveThread]
  cases hs : (sortByDesc (fun t => t.updatedAt) (activeThreadsOf db u)).head? with
  | some t => simp [hs, exOk]
  | none => simp [hs, exOk]

/-- Counterexample for C9 as stated: in the disabled state the error field
of `createEmbedding`'s result is the full sentence
`"Embedding Service is disabled: No API URL available"`, not the literal
string `"disabled"`. -/
theorem createEmbedding_disabled_literal_cex :
    (createEmbedding none .otherErr "u1" "Hello" none none).error
        ≠ some "disabled" ∧
      createEmbedding none .otherErr "u1" "Hello" none none
        = { status := "error", error := some embedDisabledError } := by
  decide

/-- Claim C9 (amended): `createEmbedding` is total in the embedding (never
raises past its boundary); in the disabled state it is a no-op returning
an error-shaped result whose error message textually indicates the
disabled state; every invocation failure is converted to the same error
shape (status "error" with an error message present); and within a turn
the outcome of the user-message indexing call affects neither the
response/database nor the assistant-message indexing call, and no
indexing outcome aborts the turn. -/
theorem createEmbedding_fail_open :
    ∀ (url userId content : String) (tid mid : Option String)
      (st : Option Nat) (msg : String) (o : HttpOutcome EmbeddingResponse)
      (env : Env) (db : DB) (c u : String) (f : List String)
      (uo uo' : HttpOutcome EmbeddingResponse),
      createEmbedding none o userId content tid mid
          = { status := "error", error := some embedDisabledError } ∧
      strIncludes embedDisabledError "disabled" = true ∧
      (createEmbedding (some url) (.axiosErr st msg) userId content tid mid).status
          = "error" ∧
      ((createEmbedding (some url) (.axiosErr st msg) userId content tid mid).error).isSome
          = true ∧
      (createEmbedding (some url) .otherErr userId content tid mid).status
          = "error" ∧
      ((createEmbedding (some url) .otherErr userId content tid mid).error).isSome
          = true ∧
      turnCore (createTurn { env with userEmbedOutcome := uo } db none c u f)
          = turnCore (createTurn { env with userEmbedOutcome := uo' } db none c u f) ∧
      turnAIEvents (createTurn { env with userEmbedOutcome := uo } db none c u f)
          = turnAIEvents (createTurn { env with userEmbedOutcome := uo' } db none c u f) ∧
      (c ≠ "" → u ≠ "" → exOk (createTurn env db none c u f) = true) := by
  intro url userId content tid mid st msg o env db c u f uo uo'
  refine ⟨rfl, by decide, rfl, rfl, rfl, rfl, ?_⟩
  by_cases hc : c = ""
  · refine ⟨?_, ?_, ?_⟩ <;> simp [createTurn, hc, turnCore, turnAIEvents]
  · by_cases hu : u = ""
    · refine ⟨?_, ?_, ?_⟩ <;> simp [createTurn, hc, hu, turnCore, turnAIEvents]
    · cases hr : resolveThread db u none c with
      | error e =>
        exfalso
        have hok := resolveThread_none_ok db u c
        rw [hr] at hok
        simp [exOk] at hok
      | ok p =>
        obtain ⟨tid2, db1⟩ := p
        cases he : isEnabled env.embedApi with
        | true =>
          refine ⟨?_, ?_, ?_⟩ <;>
            simp [createTurn, hc, hu, hr, turnCore, turnAIEvents, exOk, he,
              isEmbedAICall, List.filter]
        | false =>
          refine ⟨?_, ?_, ?_⟩ <;>
            simp [createTurn, hc, hu, hr, turnCore, turnAIEvents, exOk, he,
              isEmbedAICall, List.filter]

/-- Witness for C9: with valid inputs the turn completes whatever the
indexing outcome. -/
theorem createEmbedding_fail_open_witness :
    ("Hello" : String) ≠ "" ∧ ("u1" : String) ≠ "" ∧
      exOk (createTurn envDisabled emptyDB none "Hello" "u1" []) = true :=
  ⟨by decide, by decide,
   (createEmbedding_fail_open "x" "u" "c" none none none "m" .otherErr
      envDisabled emptyDB "Hello" "u1" [] .otherErr .otherErr).2.2.2.2.2.2.2.2
      (by decide) (by decide)⟩

/-- The answer persisted and returned by a completed turn is the enhanced
form of the RAG answer with the empty-answer fallback substituted, and the
assistant message holding it is in the final database. -/
theorem createTurn_answer_shape :
    ∀ (e : Env) (db : DB) (tid? : Option Nat) (c u : String) (f : List String)
      (r : TurnResponse) (db' : DB) (tr : List ExtCall),
      createTurn e db tid? c u f = .ok (r, db', tr) →
      r.answer = enhanceResponse
        (if (getRAGResponse e.embedApi e.ragOutcome u c none).answer = ""
          then couldNotGenerateText
          else (getRAGResponse e.embedApi e.ragOutcome u c none).answer) c ∧
      ∃ m, m ∈ db'.messages ∧ m.sender = "system" ∧ m.content = r.answer := by
  intro e db tid? c u f r db' tr h
  by_cases hc : c = ""
  · rw [createTurn, if_pos hc] at h
    exact absurd h (by simp)
  · by_cases hu : u = ""
    · rw [createTurn, if_neg hc, if_pos hu] at h
      exact absurd h (by simp)
    · cases hr : resolveThread db u tid? c with
      | error er =>
        simp [createTurn, if_neg hc, if_neg hu, hr] at h
      | ok p =>
        obtain ⟨tid, db1⟩ := p
        simp only [createTurn, if_neg hc, if_neg hu, hr] at h
        have h2 := Except.ok.inj h
        simp only [Prod.mk.injEq] at h2
        obtain ⟨hresp, hdb, htr⟩ := h2
        subst hresp
        subst hdb
        refine ⟨rfl, ?_⟩
        refine ⟨{ id := db1.tick + 1, threadId := tid,
                  content := enhanceResponse
                    (if (getRAGResponse e.embedApi e.ragOutcome u c none).answer = ""
                      then couldNotGenerateText
                      else (getRAGResponse e.embedApi e.ragOutcome u c none).answer) c,
                  sender := "system", files := [],
                  createdAt := db1.tick + 1, updatedAt := db1.tick + 1 },
                ?_, rfl, rfl⟩
        simp [List.mem_append]

/-- Analogue of `createTurn_answer_shape` for the `POST /generate`
handler: the returned answer is the enhanced fallback-substituted RAG
answer and the assistant message holding it is in the final database. -/
theorem generateOnly_answer_shape :
    ∀ (e : Env) (db : DB) (tid : Nat) (um : String) (th : Thread)
      (r : GenResponse) (db' : DB) (tr : List ExtCall),
      findThread db tid = some th →
      generateOnly e db tid um = .ok (r, db', tr) →
      r.answer = enhanceResponse
        (if (getRAGResponse e.embedApi e.ragOutcome th.userId um
              (some (toString tid))).answer = ""
          then couldNotGenerateText
          else (getRAGResponse e.embedApi e.ragOutcome th.userId um
              (some (toString tid))).answer) um ∧
      ∃ m, m ∈ db'.messages ∧ m.sender = "system" ∧ m.content = r.answer := by
  intro e db tid um th r db' tr hf h
  by_cases hu : um = ""
  · rw [generateOnly, if_pos hu] at h
    exact absurd h (by simp)
  · simp only [generateOnly, if_neg hu, hf] at h
    have h2 := Except.ok.inj h
    simp only [Prod.mk.injEq] at h2
    obtain ⟨hresp, hdb, htr⟩ := h2
    subst hresp
    subst hdb
    refine ⟨rfl, ?_⟩
    refine ⟨{ id := db.tick + 1, threadId := tid,
              content := enhanceResponse
                (if (getRAGResponse e.embedApi e.ragOutcome th.userId um
                      (some (toString tid))).answer = ""
                  then couldNotGenerateText
                  else (getRAGResponse e.embedApi e.ragOutcome th.userId um
                      (some (toString tid))).answer) um,
              sender := "system", files := [],
              createdAt := db.tick + 1, updatedAt := db.tick + 1 },
            ?_, rfl, rfl⟩
    simp [List.mem_append]

/-- Claim C10: every successfully completed turn — through the main
`POST /` handler (`createTurn`) and through the `POST /generate` handler
(`generateOnly`) alike — returns a non-empty answer, and the persisted
assistant message carries exactly that (hence non-empty) content; both
handlers substitute the literal fallback for an empty retrieval answer
before enhancement, and the enhancer maps that literal to its non-empty
richer substitute. -/
theorem createTurn_nonempty_answer :
    ∀ (env : Env) (db : DB) (tid? : Option Nat) (c u : String)
      (f : List String) (url ctx rid : String)
      (o1 o2 : HttpOutcome EmbeddingResponse),
      (∀ r db' tr, createTurn env db tid? c u f = .ok (r, db', tr) →
        r.answer ≠ "" ∧ ∃ m, m ∈ db'.messages ∧ m.sender = "system" ∧
          m.content = r.answer ∧ m.content ≠ "") ∧
      (∀ q, enhanceResponse couldNotGenerateText q = bpVal1) ∧
      bpVal1 ≠ "" ∧
      (∀ r db' tr,
        createTurn { embedApi := some url, userEmbedOutcome := o1,
                     aiEmbedOutcome := o2,
                     ragOutcome := .ok { answer := "", context := ctx,
                                         responseId := some rid } }
            db tid? c u f = .ok (r, db', tr) →
        r.answer = enhanceResponse couldNotGenerateText c) ∧
      (∀ (tid : Nat) (um : String) r db' tr,
        generateOnly env db tid um = .ok (r, db', tr) →
        r.answer ≠ "" ∧ ∃ m, m ∈ db'.messages ∧ m.sender = "system" ∧
          m.content = r.answer ∧ m.content ≠ "") ∧
      (∀ (tid : Nat) (um : String) r db' tr,
        generateOnly { embedApi := some url, userEmbedOutcome := o1,
                       aiEmbedOutcome := o2,
                       ragOutcome := .ok { answer := "", context := ctx,
                                           responseId := some rid } }
            db tid um = .ok (r, db', tr) →
        r.answer = enhanceResponse couldNotGenerateText um) := by
  intro env db tid? c u f url ctx rid o1 o2
  have hne : ∀ (e : Env) (r : TurnResponse) (db' : DB) (tr : List ExtCall),
      createTurn e db tid? c u f = .ok (r, db', tr) → r.answer ≠ "" := by
    intro e r db' tr h
    obtain ⟨ha, -⟩ := createTurn_answer_shape e db tid? c u f r db' tr h
    rw [ha]
    apply enhanceResponse_ne_empty
    by_cases hra : (getRAGResponse e.embedApi e.ragOutcome u c none).answer = ""
    · rw [if_pos hra]
      exact strNeEmpty (by decide)
    · rw [if_neg hra]
      exact hra
  have hgth : ∀ (e : Env) (tid : Nat) (um : String) (r : GenResponse)
      (db' : DB) (tr : List ExtCall),
      generateOnly e db tid um = .ok (r, db', tr) →
      ∃ th, findThread db tid = some th := by
    intro e tid um r db' tr h
    by_cases hu : um = ""
    · rw [generateOnly, if_pos hu] at h
      exact absurd h (by simp)
    · cases hf : findThread db tid with
      | none => simp [generateOnly, if_neg hu, hf] at h
      | some th => exact ⟨th, rfl⟩
  refine ⟨?_, fun q => rfl, strNeEmpty (by decide), ?_, ?_, ?_⟩
  · intro r db' tr h
    obtain ⟨ha, m, hm, hs, hc2⟩ := createTurn_answer_shape env db tid? c u f r db' tr h
    have hne2 := hne env r db' tr h
    exact ⟨hne2, m, hm, hs, hc2, hc2 ▸ hne2⟩
  · intro r db' tr h
    obtain ⟨ha, -⟩ := createTurn_answer_shape _ db tid? c u f r db' tr h
    rw [ha]
    exact rfl
  · intro tid um r db' tr h
    obtain ⟨th, hf⟩ := hgth env tid um r db' tr h
    obtain ⟨ha, m, hm, hs, hc2⟩ :=
      generateOnly_answer_shape env db tid um th r db' tr hf h
    have hne2 : r.answer ≠ "" := by
      rw [ha]
      apply enhanceResponse_ne_empty
      by_cases hra : (getRAGResponse env.embedApi env.ragOutcome th.userId um
          (some (toString tid))).answer = ""
      · rw [if_pos hra]
        exact strNeEmpty (by decide)
      · rw [if_neg hra]
        exact hra
    exact ⟨hne2, m, hm, hs, hc2, hc2 ▸ hne2⟩
  · intro tid um r db' tr h
    obtain ⟨th, hf⟩ := hgth _ tid um r db' tr h
    obtain ⟨ha, -⟩ := generateOnly_answer_shape _ db tid um th r db' tr hf h
    rw [ha]
    exact rfl

/-- Witness for C10 at the concrete disabled-mode turn. -/
theorem createTurn_nonempty_answer_witness :
    ∃ (r : TurnResponse) (db' : DB) (tr : List ExtCall),
      createTurn envDisabled emptyDB none "Hello" "u1" [] = .ok (r, db', tr) ∧
      (r.answer ≠ "" ∧ ∃ m, m ∈ db'.messages ∧ m.sender = "system" ∧
        m.content = r.answer ∧ m.content ≠ "") := by
  refine ⟨_, _, _, rfl, ?_⟩
  exact (createTurn_nonempty_answer envDisabled emptyDB none "Hello" "u1" []
    "x" "ctx" "rid" .otherErr .otherErr).1 _ _ _ rfl

end EoxsAii

example : EoxsAii.enhanceResponse "ok" "HELLO and help" = EoxsAii.greetingReply := by decide

example : EoxsAii.enhanceResponse "ok" "zzz" = "ok" ++ EoxsAii.genericTail := by decide

example : EoxsAii.splitWS " a  bc " = ["", "a", "bc", ""] := by decide
